import Mathlib

/-!
Verification of the cryptocert framework's claim-based authorization core
against its sources.

Part 1 embeds the Solidity contract
`packages/cryptocert-ethereum-xcert-contracts/src/contracts/xcert.sol`
(claim generation, signature verification, claim redemption and claim
cancellation).  Part 2 embeds the TypeScript `AssetLedger` helpers
(ability bitfields, the `allowSuperRevoke` flag, asset-creation imprint
defaulting).

Machine integers are modelled as `Nat`; the embedded functions perform no
arithmetic on them (only comparisons and map lookups), so no modular
reduction is needed.  Reverting Solidity calls are modelled as
`Except String`, carrying the contract's error-code strings; a reverted
call leaves the caller's state untouched (`callResultState`).
-/

namespace Xcert

/-- Big-endian byte representation of a value in a fixed width, as used by
Solidity's `abi.encodePacked`. -/
def beBytes : Nat → Nat → List Nat
  | 0, _ => []
  | n + 1, v => beBytes n (v / 256) ++ [v % 256]

/-- A value as it appears inside an `abi.encodePacked` argument list:
an `address` (20 bytes), a `bool` (1 byte) or a `uint256` (32 bytes). -/
inductive PackedValue : Type
  | addr (a : Nat)
  | boolv (b : Bool)
  | uint256 (v : Nat)

/-- Byte encoding of a single packed value. -/
def packedBytes : PackedValue → List Nat
  | .addr a => beBytes 20 a
  | .boolv b => beBytes 1 (if b then 1 else 0)
  | .uint256 v => beBytes 32 v

/-- Solidity `abi.encodePacked`: concatenation of the packed encodings of
the arguments, in argument order. -/
def abiEncodePacked (vs : List PackedValue) : List Nat :=
  (vs.map packedBytes).flatten

/-- The byte string "\x19Ethereum Signed Message:\n32" used by the
`eth_sign` branch of `isValidSignature` (the length is the two ASCII
characters 51 and 50, i.e. "32"). -/
def ethSignHeader : List Nat :=
  0x19 :: (("Ethereum Signed Message:".data.map Char.toNat) ++ [0x0a, 0x33, 0x32])

/-- The byte string "\x19Ethereum Signed Message:\n\x20" used by the
`trezor` branch of `isValidSignature` (the length is the single byte
0x20, Bitcoin-varint style). -/
def trezorHeader : List Nat :=
  0x19 :: (("Ethereum Signed Message:".data.map Char.toNat) ++ [0x0a, 0x20])

/-- Error-code constants of `XcertToken`. -/
def INVALID_SIGNATURE : String := "007005"

/-- Error code for an unrecognized signature kind. -/
def INVALID_SIGNATURE_KIND : String := "007006"

/-- Error code for an already performed claim. -/
def CLAIM_PERFORMED : String := "007007"

/-- Error code for an expired claim. -/
def CLAIM_EXPIRED : String := "007008"

/-- Error code for a cancelled claim. -/
def CLAIM_CANCELED : String := "007009"

/-- Error code for a cancellation attempted by a non-owner. -/
def NOT_OWNER : String := "007010"

/-- External environment of the contract: the keccak256 hash function,
ECDSA public-key recovery, and the external ERC-20 `transferFrom` call
used to pay the claim fee.  All three live outside this repository
(EVM precompiles / a foreign contract), so they are parameters of the
model; every theorem below holds for all instantiations. -/
structure Env : Type where
  keccak : List Nat → Nat
  ecrecover : Nat → Nat → Nat → Nat → Nat
  transferFrom : Nat → Nat → Nat → Nat → Except String Unit

/-- Signature parts, mirroring `struct SignatureData`.  The `kind` field
is the numeric value of the `SignatureKind` enum:
0 = `eth_sign` (standard prefixed), 1 = `trezor` (hardware prefixed),
2 = `no_prefix` (raw). -/
structure SignatureData : Type where
  r : Nat
  s : Nat
  v : Nat
  kind : Nat

/-- Arguments common to `generateClaim`, `setApprovalForAllWithSignature`
and `cancelSetApprovalForAllWithSignature`. -/
structure ApprovalClaimArgs : Type where
  owner : Nat
  operator : Nat
  approved : Bool
  feeToken : Nat
  feeValue : Nat
  feeRecipient : Nat
  seed : Nat
  expiration : Nat

/-- The mutable contract storage touched by the claim operations:
the `claimPerformed` and `claimCancelled` mappings and the
`ownerToOperators` approval mapping. -/
structure XcertState : Type where
  claimPerformed : Nat → Bool
  claimCancelled : Nat → Bool
  ownerToOperators : Nat → Nat → Bool

/-- Pointwise update of a one-key mapping. -/
def setMap (m : Nat → Bool) (k : Nat) (v : Bool) : Nat → Bool :=
  fun x => if x = k then v else m x

/-- Pointwise update of a two-key mapping. -/
def setMap2 (m : Nat → Nat → Bool) (k1 k2 : Nat) (v : Bool) : Nat → Nat → Bool :=
  fun x y => if x = k1 ∧ y = k2 then v else m x y

/-- Solidity `require(cond, msg)`: continue when `cond` holds, revert
with `msg` otherwise. -/
def solRequire {α : Type} (cond : Bool) (msg : String) (k : Except String α) :
    Except String α :=
  if cond then k else .error msg

/-- `generateClaim`: keccak256 of the packed encoding of
`address(this)` followed by the eight claim fields, in source order. -/
def generateClaim (env : Env) (this : Nat) (a : ApprovalClaimArgs) : Nat :=
  env.keccak (abiEncodePacked
    [.addr this, .addr a.owner, .addr a.operator, .boolv a.approved,
     .addr a.feeToken, .uint256 a.feeValue, .addr a.feeRecipient,
     .uint256 a.seed, .uint256 a.expiration])

/-- `isValidSignature`: three-way dispatch on the signature kind; any
other kind reverts with `INVALID_SIGNATURE_KIND`. -/
def isValidSignature (env : Env) (signer claim : Nat) (sig : SignatureData) :
    Except String Bool :=
  if sig.kind = 0 then
    .ok (signer = env.ecrecover
      (env.keccak (ethSignHeader ++ beBytes 32 claim)) sig.v sig.r sig.s)
  else if sig.kind = 1 then
    .ok (signer = env.ecrecover
      (env.keccak (trezorHeader ++ beBytes 32 claim)) sig.v sig.r sig.s)
  else if sig.kind = 2 then
    .ok (signer = env.ecrecover claim sig.v sig.r sig.s)
  else
    .error INVALID_SIGNATURE_KIND

/-- `setApprovalForAllWithSignature`: redeem a signed approval claim.
`caller` is `msg.sender`, `now` is `block.timestamp`. -/
def setApprovalForAllWithSignature (env : Env) (this caller now : Nat)
    (s : XcertState) (a : ApprovalClaimArgs) (sig : SignatureData) :
    Except String XcertState :=
  let claim := generateClaim env this a
  solRequire (!s.claimCancelled claim) CLAIM_CANCELED <|
  match isValidSignature env a.owner claim sig with
  | .error e => .error e
  | .ok valid =>
    solRequire valid INVALID_SIGNATURE <|
    solRequire (!s.claimPerformed claim) CLAIM_PERFORMED <|
    solRequire (decide (a.expiration ≥ now)) CLAIM_EXPIRED <|
    match env.transferFrom a.feeToken a.owner
        (if a.feeRecipient = 0 then caller else a.feeRecipient) a.feeValue with
    | .error e => .error e
    | .ok _ =>
      .ok { claimPerformed := setMap s.claimPerformed claim true
            claimCancelled := s.claimCancelled
            ownerToOperators := setMap2 s.ownerToOperators a.owner a.operator a.approved }

/-- `cancelSetApprovalForAllWithSignature`: cancel a not-yet-performed
approval claim; only the claim's owner may cancel. -/
def cancelSetApprovalForAllWithSignature (env : Env) (this caller : Nat)
    (s : XcertState) (a : ApprovalClaimArgs) : Except String XcertState :=
  solRequire (decide (caller = a.owner)) NOT_OWNER <|
  let claim := generateClaim env this a
  solRequire (!s.claimPerformed claim) CLAIM_PERFORMED <|
  .ok { s with claimCancelled := setMap s.claimCancelled claim true }

/-- State observed by the caller after a call: the new state on success,
the unchanged pre-state on revert. -/
def callResultState (s : XcertState) : Except String XcertState → XcertState
  | .ok s2 => s2
  | .error _ => s

end Xcert

namespace AssetLedger

/-- JavaScript `Array.prototype.indexOf`: index of the first occurrence
of `v` in `xs`, or `-1` when absent. -/
def tsIndexOf (xs : List Nat) (v : Nat) : Int :=
  match xs with
  | [] => -1
  | x :: rest =>
    if x = v then 0
    else
      let r := tsIndexOf rest v
      if r = -1 then -1 else r + 1

/-- `SuperAssetLedgerAbility.MANAGE_ABILITIES` (scaffold enum value 1). -/
def MANAGE_ABILITIES : Nat := 1

/-- Remaining ability enum values of the scaffold
(`SuperAssetLedgerAbility` and `GeneralAssetLedgerAbility`). -/
def validAbilityValues : List Nat := [1, 2, 16, 32, 64, 128, 256, 512, 1024]

/-- The `allowSuperRevoke` flag computed inside
`AssetLedger.revokeAbilities`: starts `false`, set to `true` when
`abilities.indexOf(SuperAssetLedgerAbility.MANAGE_ABILITIES) !== -1`. -/
def revokeAllowSuperRevoke (abilities : List Nat) : Bool :=
  decide (tsIndexOf abilities MANAGE_ABILITIES ≠ -1)

/-- `getBitfieldFromAbilities` (also the mask computed inline in
`AssetLedger.grantAbilities` and `AssetLedger.revokeAbilities`):
`bigNumberify(0)` then `.add(ability)` for each list element; the TS
function returns the hex string of this accumulated value. -/
def getBitfieldFromAbilities (abilities : List Nat) : Nat :=
  abilities.foldl (fun acc a => acc + a) 0

/-- Modelled from the spec (claim C8's wording): the flag's claimed value,
true exactly when the revoked bitmask includes `MANAGE_ABILITIES` and the
target account equals the caller.  Written only to be compared with the
source-derived `revokeAllowSuperRevoke`. -/
def claimedAllowSuperRevoke (abilities : List Nat) (target caller : Nat) : Bool :=
  decide (getBitfieldFromAbilities abilities &&& MANAGE_ABILITIES ≠ 0)
    && decide (target = caller)

/-- Modelled from the spec (claim C9's wording): the bitwise OR of the
listed ability bit values.  Written only to be compared with the
source-derived `getBitfieldFromAbilities`. -/
def orBitfieldFromAbilities (abilities : List Nat) : Nat :=
  abilities.foldl (fun acc a => acc ||| a) 0

/-- Modelled from the spec: the ability membership test
`hasAbility(mask, bit) == (mask & bit) != 0` (section 3 invariant); the
on-chain `isAble` implementation lives in `abilitable.sol`, which is not
among the provided sources. -/
def hasAbility (mask bit : Nat) : Bool :=
  decide (mask &&& bit ≠ 0)

/-- The default imprint constant of `AssetLedger.createAsset`. -/
def DEFAULT_IMPRINT : String :=
  "e3b0c44298fc1c149afbf4c8996fb92427ae41e4649b934ca495991b7852b855"

/-- The imprint chosen by `AssetLedger.createAsset`:
`recipe.imprint || DEFAULT_IMPRINT`, where JavaScript `||` takes the
right operand when the left is absent (`undefined`) or the empty string
(both falsy). -/
def createAssetImprint : Option String → String
  | none => DEFAULT_IMPRINT
  | some s => if s = "" then DEFAULT_IMPRINT else s

/-- The third argument `createAsset` passes on to the mutation:
the template literal `0x${imprint}`. -/
def createAssetImprintArg (i : Option String) : String :=
  "0x" ++ createAssetImprint i

end AssetLedger

/-- A concrete environment used to evaluate the model on closed inputs:
every hash is 0, recovery always returns account 0, the fee transfer
succeeds. -/
def testEnv : Xcert.Env :=
  { keccak := fun _ => 0
    ecrecover := fun _ _ _ _ => 0
    transferFrom := fun _ _ _ _ => .ok () }

/-- The all-empty contract storage: no claim performed, none cancelled,
no operator approved. -/
def emptyState : Xcert.XcertState :=
  { claimPerformed := fun _ => false
    claimCancelled := fun _ => false
    ownerToOperators := fun _ _ => false }

/-- Storage in which every claim digest is already cancelled. -/
def cancelledState : Xcert.XcertState :=
  { emptyState with claimCancelled := fun _ => true }

/-- Concrete claim arguments with owner 0 and an expiration of 0
(already expired at any positive timestamp). -/
def args0 : Xcert.ApprovalClaimArgs :=
  { owner := 0, operator := 1, approved := true, feeToken := 2,
    feeValue := 3, feeRecipient := 4, seed := 5, expiration := 0 }

/-- A raw-kind (no-prefix) signature. -/
def sigRaw : Xcert.SignatureData :=
  { r := 1, s := 2, v := 3, kind := 2 }

namespace Xcert

/-- Inversion of a successful `require`. -/
theorem solRequire_ok {α : Type} {c : Bool} {m : String} {k : Except String α}
    {x : α} (h : solRequire c m k = .ok x) : c = true ∧ k = .ok x := by
  cases c with
  | false => simp [solRequire] at h
  | true => exact ⟨rfl, h⟩

/-- A `require` with a true condition is transparent. -/
theorem solRequire_true {α : Type} {m : String} {k : Except String α} :
    solRequire true m k = k := rfl

/-- A `require` with a false condition reverts with its message. -/
theorem solRequire_false {α : Type} {m : String} {k : Except String α} :
    solRequire false m k = .error m := rfl

/-- Everything a successful `setApprovalForAllWithSignature` call implies:
all four checks passed, the fee transfer succeeded, and the resulting
state is the pre-state with the claim marked performed and the operator
approval written. -/
theorem setApprovalOk_inversion {env : Env} {this caller now : Nat}
    {s s2 : XcertState} {a : ApprovalClaimArgs} {sig : SignatureData}
    (h : setApprovalForAllWithSignature env this caller now s a sig = .ok s2) :
    s.claimCancelled (generateClaim env this a) = false ∧
    isValidSignature env a.owner (generateClaim env this a) sig = .ok true ∧
    s.claimPerformed (generateClaim env this a) = false ∧
    now ≤ a.expiration ∧
    env.transferFrom a.feeToken a.owner
      (if a.feeRecipient = 0 then caller else a.feeRecipient) a.feeValue = .ok () ∧
    s2 = { claimPerformed := setMap s.claimPerformed (generateClaim env this a) true
           claimCancelled := s.claimCancelled
           ownerToOperators := setMap2 s.ownerToOperators a.owner a.operator a.approved } := by
  unfold setApprovalForAllWithSignature at h
  obtain ⟨h1, h⟩ := solRequire_ok h
  cases hv : isValidSignature env a.owner (generateClaim env this a) sig with
  | error e => rw [hv] at h; exact absurd h (by simp)
  | ok valid =>
    rw [hv] at h
    obtain ⟨h2, h⟩ := solRequire_ok h
    obtain ⟨h3, h⟩ := solRequire_ok h
    obtain ⟨h4, h⟩ := solRequire_ok h
    cases ht : env.transferFrom a.feeToken a.owner
        (if a.feeRecipient = 0 then caller else a.feeRecipient) a.feeValue with
    | error e => rw [ht] at h; exact absurd h (by simp)
    | ok u =>
      rw [ht] at h
      refine ⟨by simpa using h1, by rw [h2], by simpa using h3,
        by simpa using h4, by cases u; rfl, ?_⟩
      cases h
      rfl

/-- Everything a successful `cancelSetApprovalForAllWithSignature` call
implies: the caller is the owner, the claim was not performed, and the
resulting state is the pre-state with the claim marked cancelled. -/
theorem cancelOk_inversion {env : Env} {this caller : Nat}
    {s s2 : XcertState} {a : ApprovalClaimArgs}
    (h : cancelSetApprovalForAllWithSignature env this caller s a = .ok s2) :
    caller = a.owner ∧
    s.claimPerformed (generateClaim env this a) = false ∧
    s2 = { s with claimCancelled := setMap s.claimCancelled (generateClaim env this a) true } := by
  unfold cancelSetApprovalForAllWithSignature at h
  obtain ⟨h1, h⟩ := solRequire_ok h
  obtain ⟨h2, h⟩ := solRequire_ok h
  exact ⟨by simpa using h1, by simpa using h2, by cases h; rfl⟩

/-- A fixed-width big-endian byte string has exactly its width as length. -/
theorem beBytes_length (n v : Nat) : (beBytes n v).length = n := by
  induction n generalizing v with
  | zero => rfl
  | succ k ih => simp [beBytes, ih]

end Xcert

open Xcert AssetLedger

/-- C5: the approval-claim digest is keccak256 of the packed encoding of
the field sequence [dispatcherId, ownerId, operatorId, approvedFlag,
feeTokenId, feeValue, feeRecipientId, seed, expirationTimestamp] in
exactly that order; the dispatcher instance identity occupies the first
20 encoded bytes; and `generateClaim` is a pure function of its
arguments plus the instance identity, so identical inputs always
produce identical digests. -/
theorem C5_generateClaim_field_order (env : Env) (this : Nat)
    (a : ApprovalClaimArgs) :
    generateClaim env this a =
      env.keccak (beBytes 20 this ++ beBytes 20 a.owner ++ beBytes 20 a.operator
        ++ beBytes 1 (if a.approved then 1 else 0) ++ beBytes 20 a.feeToken
        ++ beBytes 32 a.feeValue ++ beBytes 20 a.feeRecipient
        ++ beBytes 32 a.seed ++ beBytes 32 a.expiration) ∧
    (abiEncodePacked
      [.addr this, .addr a.owner, .addr a.operator, .boolv a.approved,
       .addr a.feeToken, .uint256 a.feeValue, .addr a.feeRecipient,
       .uint256 a.seed, .uint256 a.expiration]).take 20 = beBytes 20 this ∧
    (∀ env2 this2 a2, env = env2 → this = this2 → a = a2 →
      generateClaim env this a = generateClaim env2 this2 a2) := by
  refine ⟨?_, ?_, ?_⟩
  · simp [generateClaim, abiEncodePacked, packedBytes, List.append_assoc]
  · simp only [abiEncodePacked, List.map, packedBytes, List.flatten]
    rw [List.take_append_of_le_length (by rw [beBytes_length])]
    simp [List.take_of_length_le, beBytes_length]
  · intro env2 this2 a2 h1 h2 h3
    subst h1; subst h2; subst h3; rfl

/-- C5 witness: the field-order equation and purity instantiated at a
concrete environment and concrete claim arguments. -/
theorem C5_witness :
    generateClaim testEnv 0 args0 =
      testEnv.keccak (beBytes 20 0 ++ beBytes 20 args0.owner
        ++ beBytes 20 args0.operator ++ beBytes 1 (if args0.approved then 1 else 0)
        ++ beBytes 20 args0.feeToken ++ beBytes 32 args0.feeValue
        ++ beBytes 20 args0.feeRecipient ++ beBytes 32 args0.seed
        ++ beBytes 32 args0.expiration) ∧
    generateClaim testEnv 0 args0 = generateClaim testEnv 0 args0 :=
  ⟨(C5_generateClaim_field_order testEnv 0 args0).1,
   (C5_generateClaim_field_order testEnv 0 args0).2.2 testEnv 0 args0 rfl rfl rfl⟩

/-- C6: `isValidSignature` dispatches exactly on the signature kind.
Kind 2 (`no_prefix`, the raw kind) recovers directly from the digest;
kind 0 (`eth_sign`) recovers from a re-hash of the 32-byte-length
textual prefix followed by the digest; kind 1 (`trezor`) recovers from a
re-hash of the distinct hardware-wallet prefix followed by the digest;
every other kind reverts with `INVALID_SIGNATURE_KIND`; the two
prefixes differ.  Purity is inherent: the model is a function of the
digest and signature. -/
theorem C6_isValidSignature_dispatch (env : Env) (signer claim : Nat)
    (sig : SignatureData) :
    (sig.kind = 0 → isValidSignature env signer claim sig =
      .ok (decide (signer = env.ecrecover
        (env.keccak (ethSignHeader ++ beBytes 32 claim)) sig.v sig.r sig.s))) ∧
    (sig.kind = 1 → isValidSignature env signer claim sig =
      .ok (decide (signer = env.ecrecover
        (env.keccak (trezorHeader ++ beBytes 32 claim)) sig.v sig.r sig.s))) ∧
    (sig.kind = 2 → isValidSignature env signer claim sig =
      .ok (decide (signer = env.ecrecover claim sig.v sig.r sig.s))) ∧
    (sig.kind ≠ 0 → sig.kind ≠ 1 → sig.kind ≠ 2 →
      isValidSignature env signer claim sig = .error INVALID_SIGNATURE_KIND) ∧
    ethSignHeader ≠ trezorHeader := by
  refine ⟨?_, ?_, ?_, ?_, by decide⟩
  · intro h; simp [isValidSignature, h]
  · intro h; simp [isValidSignature, h]
  · intro h; simp [isValidSignature, h]
  · intro h0 h1 h2; simp [isValidSignature, h0, h1, h2]

/-- C1 counterexample: an input whose claim is both cancelled and
expired fails with `CLAIM_CANCELED`, not `CLAIM_EXPIRED` — the
expiration check is not performed before the claim-state lookups. -/
theorem C1_counterexample :
    args0.expiration < 1 ∧
    setApprovalForAllWithSignature testEnv 0 0 1 cancelledState args0 sigRaw =
      .error CLAIM_CANCELED ∧
    setApprovalForAllWithSignature testEnv 0 0 1 cancelledState args0 sigRaw ≠
      .error CLAIM_EXPIRED := by
  refine ⟨by decide, rfl, fun h => ?_⟩
  rw [show setApprovalForAllWithSignature testEnv 0 0 1 cancelledState args0 sigRaw =
    .error CLAIM_CANCELED from rfl] at h
  simp [CLAIM_CANCELED, CLAIM_EXPIRED] at h

/-- C1 (amended): a claim whose expiration is strictly below the current
time never succeeds; the failure is `CLAIM_EXPIRED` exactly when the
earlier checks pass (claim not cancelled, signature verification
returning true, claim not performed), the expiration check being the
last verification step, after the claim-state lookups and the signature
check and before any state write. -/
theorem C1_expired_claim_always_fails (env : Env) (this caller now : Nat)
    (s : XcertState) (a : ApprovalClaimArgs) (sig : SignatureData)
    (hexp : a.expiration < now) :
    (∃ e, setApprovalForAllWithSignature env this caller now s a sig = .error e) ∧
    (s.claimCancelled (generateClaim env this a) = false →
     isValidSignature env a.owner (generateClaim env this a) sig = .ok true →
     s.claimPerformed (generateClaim env this a) = false →
     setApprovalForAllWithSignature env this caller now s a sig =
       .error CLAIM_EXPIRED) := by
  constructor
  · cases hres : setApprovalForAllWithSignature env this caller now s a sig with
    | error e => exact ⟨e, rfl⟩
    | ok s2 =>
      have := (setApprovalOk_inversion hres).2.2.2.1
      omega
  · intro hc hv hp
    have hlt : ¬ (a.expiration ≥ now) := by omega
    simp [setApprovalForAllWithSignature, solRequire, hc, hv, hp, hlt]

/-- C1 witness: with the three earlier checks passing and an expired
claim, the call fails with `CLAIM_EXPIRED`. -/
theorem C1_witness :
    setApprovalForAllWithSignature testEnv 0 0 1 emptyState args0 sigRaw =
      .error CLAIM_EXPIRED :=
  (C1_expired_claim_always_fails testEnv 0 0 1 emptyState args0 sigRaw
    (by decide)).2 rfl rfl rfl

/-- C2: after a successful perform, the claim digest is marked performed
and a second perform of the same digest (any caller, any timestamp)
fails with `CLAIM_PERFORMED`, leaving the digest performed; performing a
digest in the cancelled state fails with `CLAIM_CANCELED`. -/
theorem C2_replay_safety (env : Env) (this caller now caller2 now2 : Nat)
    (s s2 : XcertState) (a : ApprovalClaimArgs) (sig : SignatureData) :
    (setApprovalForAllWithSignature env this caller now s a sig = .ok s2 →
      s2.claimPerformed (generateClaim env this a) = true ∧
      setApprovalForAllWithSignature env this caller2 now2 s2 a sig =
        .error CLAIM_PERFORMED) ∧
    (s.claimCancelled (generateClaim env this a) = true →
      setApprovalForAllWithSignature env this caller now s a sig =
        .error CLAIM_CANCELED) := by
  constructor
  · intro h
    obtain ⟨hc, hv, hp, hexp, htr, hs2⟩ := setApprovalOk_inversion h
    subst hs2
    constructor
    · simp [setMap]
    · simp [setApprovalForAllWithSignature, solRequire, hc, hv, setMap]
  · intro hcc
    simp [setApprovalForAllWithSignature, solRequire, hcc]

/-- C2 witness: a concrete successful perform followed by a replay of
the identical claim and signature, and a perform of a cancelled digest. -/
theorem C2_witness :
    (callResultState emptyState (setApprovalForAllWithSignature testEnv 0 0 0
        emptyState args0 sigRaw)).claimPerformed (generateClaim testEnv 0 args0) =
      true ∧
    setApprovalForAllWithSignature testEnv 0 5 7
      (callResultState emptyState (setApprovalForAllWithSignature testEnv 0 0 0
        emptyState args0 sigRaw)) args0 sigRaw = .error CLAIM_PERFORMED ∧
    setApprovalForAllWithSignature testEnv 0 0 1 cancelledState args0 sigRaw =
      .error CLAIM_CANCELED := by
  have h := (C2_replay_safety testEnv 0 0 0 5 7 emptyState
    (callResultState emptyState (setApprovalForAllWithSignature testEnv 0 0 0
      emptyState args0 sigRaw)) args0 sigRaw).1 rfl
  have h2 := (C2_replay_safety testEnv 0 0 1 5 7 cancelledState emptyState
    args0 sigRaw).2 rfl
  exact ⟨h.1, h.2, h2⟩

/-- C3: cancellation by a non-owner fails with `NOT_OWNER`; cancellation
of a performed digest by the owner fails with `CLAIM_PERFORMED`; a
cancel never succeeds on a performed digest; performing a cancelled
digest fails with `CLAIM_CANCELED`. -/
theorem C3_cancellation_exclusivity (env : Env) (this caller now : Nat)
    (s : XcertState) (a : ApprovalClaimArgs) (sig : SignatureData) :
    (caller ≠ a.owner →
      cancelSetApprovalForAllWithSignature env this caller s a = .error NOT_OWNER) ∧
    (caller = a.owner → s.claimPerformed (generateClaim env this a) = true →
      cancelSetApprovalForAllWithSignature env this caller s a =
        .error CLAIM_PERFORMED) ∧
    (s.claimPerformed (generateClaim env this a) = true →
      ∀ s2, cancelSetApprovalForAllWithSignature env this caller s a ≠ .ok s2) ∧
    (s.claimCancelled (generateClaim env this a) = true →
      setApprovalForAllWithSignature env this caller now s a sig =
        .error CLAIM_CANCELED) := by
  refine ⟨?_, ?_, ?_, ?_⟩
  · intro h
    simp [cancelSetApprovalForAllWithSignature, solRequire, h]
  · intro h hp
    simp [cancelSetApprovalForAllWithSignature, solRequire, h, hp]
  · intro hp s2 h
    rw [(cancelOk_inversion h).2.1] at hp
    cases hp
  · intro hcc
    simp [setApprovalForAllWithSignature, solRequire, hcc]

/-- C3 witness: a non-owner cancel, an owner cancel of a performed
digest, and a perform of a cancelled digest, all at concrete inputs. -/
theorem C3_witness :
    cancelSetApprovalForAllWithSignature testEnv 0 3 emptyState args0 =
      .error NOT_OWNER ∧
    cancelSetApprovalForAllWithSignature testEnv 0 0
      (callResultState emptyState (setApprovalForAllWithSignature testEnv 0 0 0
        emptyState args0 sigRaw)) args0 = .error CLAIM_PERFORMED ∧
    setApprovalForAllWithSignature testEnv 0 0 1 cancelledState args0 sigRaw =
      .error CLAIM_CANCELED := by
  refine ⟨?_, ?_, ?_⟩
  · exact (C3_cancellation_exclusivity testEnv 0 3 0 emptyState args0 sigRaw).1
      (by decide)
  · exact (C3_cancellation_exclusivity testEnv 0 0 0
      (callResultState emptyState (setApprovalForAllWithSignature testEnv 0 0 0
        emptyState args0 sigRaw)) args0 sigRaw).2.1 rfl rfl
  · exact (C3_cancellation_exclusivity testEnv 0 0 1 cancelledState args0
      sigRaw).2.2.2 rfl

/-- C4 counterexample: cancelling an already-cancelled claim succeeds
again instead of failing — the first cancel succeeds, marks the digest
cancelled, and the identical second cancel also succeeds. -/
theorem C4_counterexample :
    (cancelSetApprovalForAllWithSignature testEnv 0 0 emptyState args0).isOk =
      true ∧
    (callResultState emptyState (cancelSetApprovalForAllWithSignature testEnv 0 0
      emptyState args0)).claimCancelled (generateClaim testEnv 0 args0) = true ∧
    (cancelSetApprovalForAllWithSignature testEnv 0 0
      (callResultState emptyState (cancelSetApprovalForAllWithSignature testEnv 0 0
        emptyState args0)) args0).isOk = true := by
  exact ⟨rfl, rfl, rfl⟩

/-- C4 (amended): a second perform after a successful perform fails with
`CLAIM_PERFORMED`; a second cancel after a successful cancel succeeds
again (cancel is idempotent rather than failing), the digest staying
cancelled. -/
theorem C4_second_call_behaviour (env : Env) (this caller now caller2 now2 : Nat)
    (s s2 : XcertState) (a : ApprovalClaimArgs) (sig : SignatureData) :
    (setApprovalForAllWithSignature env this caller now s a sig = .ok s2 →
      setApprovalForAllWithSignature env this caller2 now2 s2 a sig =
        .error CLAIM_PERFORMED) ∧
    (cancelSetApprovalForAllWithSignature env this caller s a = .ok s2 →
      s2.claimCancelled (generateClaim env this a) = true ∧
      (cancelSetApprovalForAllWithSignature env this caller s2 a).isOk = true) := by
  constructor
  · intro h
    obtain ⟨hc, hv, hp, hexp, htr, hs2⟩ := setApprovalOk_inversion h
    subst hs2
    simp [setApprovalForAllWithSignature, solRequire, hc, hv, setMap]
  · intro h
    obtain ⟨hcaller, hp, hs2⟩ := cancelOk_inversion h
    subst hs2
    constructor
    · simp [setMap]
    · simp [cancelSetApprovalForAllWithSignature, solRequire, hcaller, hp,
        Except.isOk, Except.toBool]

/-- C4 witness: the amended behaviour at concrete inputs — a replayed
perform fails while a replayed cancel succeeds. -/
theorem C4_witness :
    setApprovalForAllWithSignature testEnv 0 5 7
      (callResultState emptyState (setApprovalForAllWithSignature testEnv 0 0 0
        emptyState args0 sigRaw)) args0 sigRaw = .error CLAIM_PERFORMED ∧
    (callResultState emptyState (cancelSetApprovalForAllWithSignature testEnv 0 0
      emptyState args0)).claimCancelled (generateClaim testEnv 0 args0) = true ∧
    (cancelSetApprovalForAllWithSignature testEnv 0 0
      (callResultState emptyState (cancelSetApprovalForAllWithSignature testEnv 0 0
        emptyState args0)) args0).isOk = true := by
  refine ⟨?_, ?_, ?_⟩
  · exact (C4_second_call_behaviour testEnv 0 0 0 5 7 emptyState
      (callResultState emptyState (setApprovalForAllWithSignature testEnv 0 0 0
        emptyState args0 sigRaw)) args0 sigRaw).1 rfl
  · exact ((C4_second_call_behaviour testEnv 0 0 0 5 7 emptyState
      (callResultState emptyState (cancelSetApprovalForAllWithSignature testEnv 0 0
        emptyState args0)) args0 sigRaw).2 rfl).1
  · exact ((C4_second_call_behaviour testEnv 0 0 0 5 7 emptyState
      (callResultState emptyState (cancelSetApprovalForAllWithSignature testEnv 0 0
        emptyState args0)) args0 sigRaw).2 rfl).2

/-- C7: when any verification step fails — the claim is cancelled, the
signature check reverts or returns false, the claim is performed, or
the claim is expired — the whole call aborts with an error and the
caller-observed state is exactly the pre-state. -/
theorem C7_atomicity_on_verification_failure (env : Env) (this caller now : Nat)
    (s : XcertState) (a : ApprovalClaimArgs) (sig : SignatureData)
    (hfail : s.claimCancelled (generateClaim env this a) = true ∨
      (∃ e, isValidSignature env a.owner (generateClaim env this a) sig = .error e) ∨
      isValidSignature env a.owner (generateClaim env this a) sig = .ok false ∨
      s.claimPerformed (generateClaim env this a) = true ∨
      a.expiration < now) :
    (∃ e, setApprovalForAllWithSignature env this caller now s a sig = .error e) ∧
    callResultState s (setApprovalForAllWithSignature env this caller now s a sig) =
      s := by
  have herr : ∃ e, setApprovalForAllWithSignature env this caller now s a sig =
      .error e := by
    cases hres : setApprovalForAllWithSignature env this caller now s a sig with
    | error e => exact ⟨e, rfl⟩
    | ok s2 =>
      obtain ⟨hc, hv, hp, hexp, _, _⟩ := setApprovalOk_inversion hres
      rcases hfail with h | ⟨e, h⟩ | h | h | h
      · rw [hc] at h; cases h
      · rw [hv] at h; cases h
      · rw [hv] at h; simp at h
      · rw [hp] at h; cases h
      · omega
  obtain ⟨e, he⟩ := herr
  exact ⟨⟨e, he⟩, by rw [he]; rfl⟩

/-- C7 witness: a cancelled claim aborts the call and the observed state
equals the pre-state. -/
theorem C7_witness :
    (∃ e, setApprovalForAllWithSignature testEnv 0 0 1 cancelledState args0 sigRaw =
      .error e) ∧
    callResultState cancelledState (setApprovalForAllWithSignature testEnv 0 0 1
      cancelledState args0 sigRaw) = cancelledState :=
  C7_atomicity_on_verification_failure testEnv 0 0 1 cancelledState args0 sigRaw
    (Or.inl rfl)

/-- C6 witness: the dispatch evaluated on concrete signatures of each
kind, including an out-of-range kind 3. -/
theorem C6_witness :
    isValidSignature testEnv 5 9 { r := 1, s := 2, v := 3, kind := 3 } =
      .error INVALID_SIGNATURE_KIND ∧
    isValidSignature testEnv 5 9 { r := 1, s := 2, v := 3, kind := 2 } =
      .ok (decide (5 = testEnv.ecrecover 9 3 1 2)) ∧
    isValidSignature testEnv 5 9 { r := 1, s := 2, v := 3, kind := 0 } =
      .ok (decide (5 = testEnv.ecrecover
        (testEnv.keccak (ethSignHeader ++ beBytes 32 9)) 3 1 2)) ∧
    isValidSignature testEnv 5 9 { r := 1, s := 2, v := 3, kind := 1 } =
      .ok (decide (5 = testEnv.ecrecover
        (testEnv.keccak (trezorHeader ++ beBytes 32 9)) 3 1 2)) :=
  ⟨(C6_isValidSignature_dispatch testEnv 5 9 _).2.2.2.1
      (by decide) (by decide) (by decide),
   (C6_isValidSignature_dispatch testEnv 5 9 _).2.2.1 rfl,
   (C6_isValidSignature_dispatch testEnv 5 9 _).1 rfl,
   (C6_isValidSignature_dispatch testEnv 5 9 _).2.1 rfl⟩

namespace AssetLedger

/-- Two naturals with disjoint bits add like bitwise OR. -/
theorem add_eq_lor_of_land_eq_zero (x : Nat) :
    ∀ y : Nat, x &&& y = 0 → x + y = x ||| y := by
  induction x using Nat.binaryRec with
  | z => intro y h; simp
  | f b m ih =>
    intro y h
    rw [← Nat.bit_testBit_zero_shiftRight_one y] at h ⊢
    rw [Nat.land_bit] at h
    rw [Nat.lor_bit]
    rcases Nat.bit_eq_zero_iff.mp h with ⟨h1, h2⟩
    have ih2 := ih (y >>> 1) h1
    cases b <;> cases hb : Nat.testBit y 0
    · simp only [Nat.bit, Bool.false_or, cond_false]
      omega
    · simp only [Nat.bit, Bool.false_or, cond_false, cond_true]
      omega
    · simp only [Nat.bit, Bool.true_or, cond_false, cond_true]
      omega
    · simp [hb] at h2

/-- Distinct values of the ability enum occupy disjoint bits. -/
theorem validAbilityValues_pairwise_disjoint :
    ∀ x ∈ validAbilityValues, ∀ y ∈ validAbilityValues, x ≠ y → x &&& y = 0 := by
  decide

/-- Folding with addition coincides with folding with bitwise OR when the
list elements have pairwise disjoint bits, all disjoint from the
accumulator. -/
theorem foldl_add_eq_foldl_lor (l : List Nat) :
    ∀ acc : Nat, l.Pairwise (fun x y => x &&& y = 0) →
    (∀ x ∈ l, acc &&& x = 0) →
    l.foldl (fun a b => a + b) acc = l.foldl (fun a b => a ||| b) acc := by
  induction l with
  | nil => intro acc _ _; rfl
  | cons x rest ih =>
    intro acc hpair hacc
    rcases List.pairwise_cons.mp hpair with ⟨hx, hrest⟩
    have hax : acc + x = acc ||| x :=
      add_eq_lor_of_land_eq_zero acc x (hacc x (List.mem_cons_self x rest))
    simp only [List.foldl_cons]
    rw [hax]
    apply ih _ hrest
    intro y hy
    rw [Nat.and_distrib_right, hacc y (List.mem_cons_of_mem x hy), hx y hy]
    rfl

/-- The JavaScript `indexOf` model returns -1 exactly on absence, and
never anything below -1. -/
theorem tsIndexOf_spec (xs : List Nat) (v : Nat) :
    (tsIndexOf xs v = -1 ↔ v ∉ xs) ∧ -1 ≤ tsIndexOf xs v := by
  induction xs with
  | nil => simp [tsIndexOf]
  | cons x rest ih =>
    obtain ⟨ih1, ih2⟩ := ih
    simp only [tsIndexOf]
    by_cases hx : x = v
    · subst hx
      constructor
      · rw [if_pos rfl]
        simp
      · rw [if_pos rfl]; omega
    · rw [if_neg hx]
      by_cases hr : tsIndexOf rest v = -1
      · rw [if_pos hr]
        constructor
        · constructor
          · intro _
            simp only [List.mem_cons, not_or]
            exact ⟨fun hv => hx hv.symm, ih1.mp hr⟩
          · intro _
            rfl
        · omega
      · rw [if_neg hr]
        constructor
        · constructor
          · intro habs; omega
          · intro hmem
            simp only [List.mem_cons, not_or] at hmem
            exact absurd (ih1.mpr hmem.2) hr
        · omega

end AssetLedger

/-- C8 counterexample: revoking the list [MANAGE_ABILITIES] with a
target different from the caller — the code passes `allowSuperRevoke =
true` even though the claimed trigger condition (bitmask includes
MANAGE_ABILITIES and target equals caller) evaluates to false. -/
theorem C8_counterexample :
    revokeAllowSuperRevoke [1] = true ∧
    claimedAllowSuperRevoke [1] 5 7 = false ∧
    revokeAllowSuperRevoke [1] ≠ claimedAllowSuperRevoke [1] 5 7 := by
  decide

/-- C8 (amended): the `allowSuperRevoke` flag passed to the underlying
revoke operation is true exactly when the ability list being revoked
contains `MANAGE_ABILITIES`; the target and caller play no role. -/
theorem C8_allowSuperRevoke_flag (abilities : List Nat) :
    revokeAllowSuperRevoke abilities = true ↔ MANAGE_ABILITIES ∈ abilities := by
  have h := (tsIndexOf_spec abilities MANAGE_ABILITIES).1
  simp only [revokeAllowSuperRevoke, decide_eq_true_eq]
  constructor
  · intro hne
    by_contra hnm
    exact hne (h.mpr hnm)
  · intro hmem heq
    exact (h.mp heq) hmem

/-- C8 witness: the flag evaluated on a list containing
`MANAGE_ABILITIES` and on one not containing it. -/
theorem C8_witness :
    revokeAllowSuperRevoke [1, 16] = true ∧ revokeAllowSuperRevoke [16] ≠ true :=
  ⟨(C8_allowSuperRevoke_flag [1, 16]).mpr (by decide),
   fun h => absurd ((C8_allowSuperRevoke_flag [16]).mp h) (by decide)⟩

/-- C9 counterexample: on a list with a repeated ability the additive
bitfield differs from the bitwise OR of the listed values — adding
CREATE_ASSET (16) twice yields 32, the REVOKE_ASSET bit. -/
theorem C9_counterexample :
    getBitfieldFromAbilities [16, 16] = 32 ∧
    orBitfieldFromAbilities [16, 16] = 16 ∧
    getBitfieldFromAbilities [16, 16] ≠ orBitfieldFromAbilities [16, 16] := by
  decide

/-- C9 (amended): for every duplicate-free list of abilities drawn from
the ability enum, the additively built bitfield equals the bitwise OR of
the listed values; the bitfield of [CREATE_ASSET, UPDATE_ASSET] is 144,
which has the UPDATE_ASSET bit and lacks the REVOKE_ASSET bit. -/
theorem C9_bitfield_is_or (abilities : List Nat) (hnd : abilities.Nodup)
    (hval : ∀ x ∈ abilities, x ∈ validAbilityValues) :
    getBitfieldFromAbilities abilities = orBitfieldFromAbilities abilities ∧
    getBitfieldFromAbilities [16, 128] = 144 ∧
    hasAbility 144 128 = true ∧
    hasAbility 144 32 = false := by
  refine ⟨?_, by decide, by decide, by decide⟩
  apply foldl_add_eq_foldl_lor
  · refine List.Pairwise.imp_of_mem ?_ hnd
    intro a b ha hb hne
    exact validAbilityValues_pairwise_disjoint a (hval a ha) b (hval b hb) hne
  · intro x _
    exact Nat.zero_and x

/-- C9 witness: the amended statement instantiated at the duplicate-free
list [16, 128] of scenario D. -/
theorem C9_witness :
    getBitfieldFromAbilities [16, 128] = orBitfieldFromAbilities [16, 128] ∧
    getBitfieldFromAbilities [16, 128] = 144 ∧
    hasAbility 144 128 = true ∧
    hasAbility 144 32 = false :=
  C9_bitfield_is_or [16, 128] (by decide) (by decide)

/-- C10 counterexample: a supplied empty-string imprint is not used —
the JavaScript `||` treats it as falsy and substitutes the default
digest. -/
theorem C10_counterexample :
    createAssetImprint (some "") = DEFAULT_IMPRINT ∧
    createAssetImprint (some "") ≠ "" := by
  decide

/-- C10 (amended): an absent imprint is replaced by the fixed default
digest e3b0c44298fc1c149afbf4c8996fb92427ae41e4649b934ca495991b7852b855;
a supplied non-empty imprint is used as given; the chosen imprint is
never empty (an empty supplied imprint is also replaced by the default),
and the mutation receives it 0x-prefixed. -/
theorem C10_imprint_default (r : Option String) :
    (r = none → createAssetImprint r =
      "e3b0c44298fc1c149afbf4c8996fb92427ae41e4649b934ca495991b7852b855") ∧
    (∀ s, r = some s → s ≠ "" → createAssetImprint r = s) ∧
    createAssetImprint r ≠ "" ∧
    createAssetImprintArg r = "0x" ++ createAssetImprint r := by
  refine ⟨?_, ?_, ?_, rfl⟩
  · intro h; subst h; rfl
  · intro s h hne
    subst h
    simp [createAssetImprint, hne]
  · cases r with
    | none => decide
    | some s =>
      by_cases hs : s = ""
      · subst hs; decide
      · simp [createAssetImprint, hs]

/-- C10 witness: the imprint choice evaluated at an absent imprint and
at the supplied imprint "abc". -/
theorem C10_witness :
    createAssetImprint none =
      "e3b0c44298fc1c149afbf4c8996fb92427ae41e4649b934ca495991b7852b855" ∧
    createAssetImprint (some "abc") = "abc" ∧
    createAssetImprint (some "abc") ≠ "" :=
  ⟨(C10_imprint_default none).1 rfl,
   (C10_imprint_default (some "abc")).2.1 "abc" rfl (by decide),
   (C10_imprint_default (some "abc")).2.2.1⟩
